import Mathlib

/-!
Shallow embedding of the Greenrun CLI batch-orchestration core
(`src/api-client.ts`): the test filter, the credential scoper
(`buildProjectSummary`), the batch preparer (`prepareTestBatch` /
`startBatchRuns`) and the transport error translation
(`ApiClient.request`), together with theorems settling the spec claims.

Strings are Lean `String`s; JS `undefined` on an optional field is
`Option.none`; JS truthiness of an optional string is "present and
non-empty".  Asynchronous API calls are modelled as functions into
`Except String` supplied by an environment record, with `Promise.all`
rendered as all-or-nothing sequencing (an error anywhere fails the
whole batch, as in the code).
-/

namespace Greenrun

/-! ### JS string primitives -/

/-- `s` begins with `p` (char-list rendering of JS `String.startsWith`). -/
def charsStartWith : List Char → List Char → Bool
  | [], _ => true
  | _ :: _, [] => false
  | a :: p, b :: s => a == b && charsStartWith p s

/-- `sub` occurs as a contiguous substring of `s`
(char-list rendering of JS `String.includes`). -/
def charsInclude (sub : List Char) : List Char → Bool
  | [] => charsStartWith sub []
  | c :: s => charsStartWith sub (c :: s) || charsInclude sub s

/-- JS `s.includes(sub)`. -/
def strIncludes (s sub : String) : Bool := charsInclude sub.data s.data

/-- JS `s.startsWith(pre)`. -/
def strStarts (s pre : String) : Bool := charsStartWith pre.data s.data

/-- JS `s.toLowerCase()` (restricted to `Char.toLower`). -/
def strLower (s : String) : String := ⟨s.data.map Char.toLower⟩

/-- JS `s.slice(n)`. -/
def strDrop (s : String) (n : Nat) : String := ⟨s.data.drop n⟩

/-- JS truthiness of an optional string (`undefined` and `""` are falsy). -/
def jsTruthyStr : Option String → Bool
  | none => false
  | some s => s != ""

/-! ### Data model (DTO interfaces of `api-client.ts`) -/

/-- Credential set stored on a project. -/
structure Credential where
  name : String
  email : String
  password : String
deriving DecidableEq, Repr

/-- Page data as returned by the API (fields the core reads). -/
structure PageData where
  id : String
  url : String
deriving DecidableEq, Repr

/-- A tag is either a bare string or an object carrying an optional name. -/
inductive TagValue where
  | str (s : String)
  | obj (name : Option String)
deriving DecidableEq, Repr

/-- Test data returned by the API (fields the core reads). -/
structure TestResponse where
  id : String
  name : String
  instructions : Option String := none
  status : Option String := none
  credential_name : Option String := none
  has_script : Option Bool := none
  script : Option String := none
  pages : Option (List PageData) := none
  tags : Option (List TagValue) := none
deriving DecidableEq, Repr

/-- Project data returned by the API. -/
structure ProjectResponse where
  id : String
  name : String
  base_url : Option String := none
  description : Option String := none
  auth_mode : Option String := none
  login_url : Option String := none
  register_url : Option String := none
  login_instructions : Option String := none
  register_instructions : Option String := none
  credentials : Option (List Credential) := none
deriving DecidableEq, Repr

/-- Run data returned by the API (fields the core reads). -/
structure RunResponse where
  id : String
  status : String
  result : Option String := none
deriving DecidableEq, Repr

/-- Page reference inside a batch test summary (`{ id, url }`). -/
structure PageRef where
  id : String
  url : String
deriving DecidableEq, Repr

/-- Summary of a test in a prepared batch. -/
structure BatchTestSummary where
  test_id : String
  test_name : String
  run_id : String
  credential_name : Option String
  pages : List PageRef
  tags : List String
  has_script : Bool
deriving DecidableEq, Repr

/-- Project summary included in a batch result, with auth fields filtered. -/
structure BatchProjectSummary where
  id : String
  name : String
  base_url : Option String := none
  auth_mode : String
  login_url : Option String := none
  register_url : Option String := none
  login_instructions : Option String := none
  register_instructions : Option String := none
  credentials : Option (List Credential) := none
deriving DecidableEq, Repr

/-- Result of preparing a test batch for execution. -/
structure BatchResult where
  project : BatchProjectSummary
  tests : List BatchTestSummary
deriving DecidableEq, Repr

/-! ### The test filter (`filterTests`) -/

/-- `typeof tag === 'string' ? tag : tag.name || ''`. -/
def tagValueName : TagValue → String
  | .str s => s
  | .obj name => name.getD ""

/-- Embedding of `filterTests` from `api-client.ts`: keep active tests,
then filter by explicit ids when a non-empty id list is given, else by
the filter expression (tag / page-URL / name rule chosen by prefix). -/
def filterTests (tests : List TestResponse) (filter : Option String)
    (testIds : Option (List String)) : List TestResponse :=
  let activeTests := tests.filter fun t => t.status == some "active"
  if (testIds.getD []).length > 0 then
    let idSet := testIds.getD []
    activeTests.filter fun t => idSet.contains t.id
  else if jsTruthyStr filter then
    let f := filter.getD ""
    if strStarts f "tag:" then
      let tagName := strLower (strDrop f 4)
      activeTests.filter fun t =>
        (t.tags.getD []).any fun tag => strLower (tagValueName tag) == tagName
    else if strStarts f "/" then
      activeTests.filter fun t =>
        (t.pages.getD []).any fun p => strIncludes p.url f
    else
      let term := strLower f
      activeTests.filter fun t => strIncludes (strLower t.name) term
  else
    activeTests

/-! ### The credential scoper (`buildProjectSummary`) -/

/-- `tests.map(t => t.credential_name).filter(n => !!n)`: the credential
names referenced by the tests, with `undefined` and `""` dropped
(JS truthiness). -/
def referencedCredNames (tests : List TestResponse) : List String :=
  tests.filterMap fun t =>
    match t.credential_name with
    | some n => if n == "" then none else some n
    | none => none

/-- Embedding of `buildProjectSummary` from `api-client.ts`. -/
def buildProjectSummary (project : ProjectResponse) (tests : List TestResponse) :
    BatchProjectSummary :=
  let authMode := project.auth_mode.getD "none"
  if authMode == "none" then
    { id := project.id, name := project.name, base_url := project.base_url,
      auth_mode := "none" }
  else
    let referencedNames := referencedCredNames tests
    let allCredentials := project.credentials.getD []
    let filteredCredentials :=
      if referencedNames.length > 0 then
        allCredentials.filter fun cred => referencedNames.contains cred.name
      else
        allCredentials
    { id := project.id, name := project.name, base_url := project.base_url,
      auth_mode := authMode,
      login_url := project.login_url, register_url := project.register_url,
      login_instructions := project.login_instructions,
      register_instructions := project.register_instructions,
      credentials := if filteredCredentials.length > 0 then some filteredCredentials else none }

/-- The credentials a summary actually exposes (`undefined` exposes none). -/
def exposedCredentials (s : BatchProjectSummary) : List Credential :=
  s.credentials.getD []

/-! ### The batch preparer (`prepareTestBatch`, `startBatchRuns`) -/

/-- Response wrapper `{ project }` of `GET /projects/:id`. -/
structure ProjectWrap where
  project : ProjectResponse
deriving DecidableEq, Repr

/-- Response wrapper `{ tests }` of `GET /projects/:id/tests`. -/
structure TestsWrap where
  tests : List TestResponse
deriving DecidableEq, Repr

/-- Response wrapper `{ test }` of `GET /tests/:id`. -/
structure TestWrap where
  test : TestResponse
deriving DecidableEq, Repr

/-- Response wrapper `{ run }` of `POST /tests/:id/runs`. -/
structure RunWrap where
  run : RunResponse
deriving DecidableEq, Repr

/-- The remote API as seen by `prepareTestBatch`: each endpoint the
`ApiClient` methods reach is a function returning `Except` (a rejected
promise is `.error`).  `getTest` is the per-test detail endpoint
(`GET /tests/:id`); it is part of the client's surface whether or not
batch preparation calls it. -/
structure ApiEnv where
  getProject : String → Except String ProjectWrap
  listTests : String → Bool → Except String TestsWrap
  getTest : String → Except String TestWrap
  startRun : String → Except String RunWrap

/-- Embedding of `startBatchRuns`: `Promise.all(tests.map(t => startRun(t.id)))`,
rendered as all-or-nothing sequencing in list order. -/
def startBatchRuns (tests : List TestResponse)
    (startRun : String → Except String RunWrap) : Except String (List RunWrap) :=
  match tests with
  | [] => .ok []
  | test :: rest =>
    match startRun test.id, startBatchRuns rest startRun with
    | .error e, _ => .error e
    | .ok _, .error e => .error e
    | .ok w, .ok ws => .ok (w :: ws)

/-- JS `test.has_script ?? !!test.script`. -/
def testHasScript (test : TestResponse) : Bool :=
  test.has_script.getD (jsTruthyStr test.script)

/-- The per-test entry `prepareTestBatch` assembles (the arrow function
inside `activeTests.map`), pairing a test with the run started at its
index. -/
def mkBatchEntry (test : TestResponse) (runWrap : RunWrap) : BatchTestSummary :=
  { test_id := test.id
    test_name := test.name
    run_id := runWrap.run.id
    credential_name := test.credential_name
    pages := (test.pages.getD []).map fun p => { id := p.id, url := p.url }
    tags := (test.tags.getD []).map tagValueName
    has_script := testHasScript test }

/-- Embedding of `prepareTestBatch`: fetch project and tests
(`Promise.all`), filter, build the redacted summary, and unless the
filtered set is empty start one run per surviving test and assemble the
entries in filtered order (`runs[index]` pairing is `zipWith`). -/
def prepareTestBatch (env : ApiEnv) (projectId : String) (filter : Option String)
    (testIds : Option (List String)) : Except String BatchResult :=
  match env.getProject projectId, env.listTests projectId true with
  | .error e, _ => .error e
  | .ok _, .error e => .error e
  | .ok projectResult, .ok testsResult =>
    let project := projectResult.project
    let activeTests := filterTests testsResult.tests filter testIds
    let projectSummary := buildProjectSummary project activeTests
    if activeTests.length == 0 then
      .ok { project := projectSummary, tests := [] }
    else
      match startBatchRuns activeTests env.startRun with
      | .error e => .error e
      | .ok runs =>
        .ok { project := projectSummary
              tests := List.zipWith mkBatchEntry activeTests runs }

/-! ### Transport error translation (`ApiClient.request`) -/

/-- A JSON value as produced by `JSON.parse` (numbers restricted to the
integers the claims exercise). -/
inductive JsValue where
  | str (s : String)
  | num (n : Int)
  | bool (b : Bool)
  | null
  | arr (elems : List JsValue)
  | obj (fields : List (String × JsValue))

/-- JS truthiness of a JSON value. -/
def jsTruthy : JsValue → Bool
  | .str s => s != ""
  | .num n => n != 0
  | .bool b => b
  | .null => false
  | .arr _ => true
  | .obj _ => true

mutual

/-- JS string conversion applied by the template literal. -/
def jsToString : JsValue → String
  | .str s => s
  | .num n => toString n
  | .bool b => if b then "true" else "false"
  | .null => "null"
  | .arr elems => jsArrToString elems
  | .obj _ => "[object Object]"

/-- JS `Array.prototype.toString`: elements joined by `,`, with `null`
rendered empty. -/
def jsArrToString : List JsValue → String
  | [] => ""
  | [JsValue.null] => ""
  | [e] => jsToString e
  | JsValue.null :: rest => "," ++ jsArrToString rest
  | e :: rest => jsToString e ++ "," ++ jsArrToString rest

end

/-- JS member access `v.message`-style on a parsed JSON value: a field
lookup on objects, `undefined` (`none`) on everything else. -/
def jsGetField (v : JsValue) (key : String) : Option JsValue :=
  match v with
  | .obj fields => fields.lookup key
  | _ => none

/-- An HTTP response as `request` observes it: status plus body text. -/
structure HttpResponse where
  status : Nat
  body : String
deriving DecidableEq, Repr

/-- JS `response.ok`: status in the 2xx range. -/
def respOk (r : HttpResponse) : Bool := 200 ≤ r.status && r.status ≤ 299

/-- Failures `request` can produce: the typed API failure built for a
non-2xx status, or a body that is not JSON on the success path. -/
inductive ReqError where
  | apiFailure (method : String) (path : String) (status : Nat) (message : String)
  | bodyNotJson
deriving DecidableEq, Repr

/-- Embedding of the error path of `ApiClient.request`: on a non-2xx
response, extract `json.message || text` under a `try/catch` (member
access on a non-object throws or yields `undefined`, both falling back
to the raw text) and raise the typed failure; on 2xx, return the parsed
body.  `parse` stands for the platform's `JSON.parse`, returning `none`
where it would throw. -/
def request (parse : String → Option JsValue) (method path : String)
    (resp : HttpResponse) : Except ReqError JsValue :=
  if respOk resp then
    match parse resp.body with
    | some v => .ok v
    | none => .error .bodyNotJson
  else
    let text := resp.body
    let message :=
      match parse text with
      | some json =>
        match jsGetField json "message" with
        | some m => if jsTruthy m then jsToString m else text
        | none => text
      | none => text
    .error (.apiFailure method path resp.status message)

/-! ### Spec-side definitions (claim wordings, for refinement comparison) -/

/-- The credential list exactly as claim C1 words it: collect the
distinct non-null `credential_name` values of the selected tests (an
empty string is a non-null value); if the set is non-empty keep the
project's credentials whose name is in it, in original order, else the
full list. -/
def claimScopedCredentials (project : ProjectResponse) (tests : List TestResponse) :
    List Credential :=
  let referenced := tests.filterMap fun t => t.credential_name
  if referenced.length > 0 then
    (project.credentials.getD []).filter fun c => referenced.contains c.name
  else
    project.credentials.getD []

/-- The credential list as the amended claim words it: like
`claimScopedCredentials` but the referenced set keeps only non-null
*and non-empty* names (JS truthiness, as the code tests `!!name`). -/
def claimScopedCredentialsTruthy (project : ProjectResponse) (tests : List TestResponse) :
    List Credential :=
  let referenced := (tests.filterMap fun t => t.credential_name).filter fun n => n != ""
  if referenced.length > 0 then
    (project.credentials.getD []).filter fun c => referenced.contains c.name
  else
    project.credentials.getD []

/-- The failure message as the amended claim C9 words it: the
stringified `message` field when the body parses as JSON with a truthy
`message` field, otherwise the raw body text. -/
def specErrorMessage (parse : String → Option JsValue) (text : String) : String :=
  match parse text with
  | some json =>
    match jsGetField json "message" with
    | some m => if jsTruthy m then jsToString m else text
    | none => text
  | none => text

/-- The single rule claim C4 assigns to a filter expression, chosen by
prefix: `tag:` → case-insensitive tag-name equality with the remainder;
`/` → some associated page URL contains the whole expression; otherwise
→ case-insensitive name containment. -/
def claimExprRule (f : String) (t : TestResponse) : Bool :=
  if strStarts f "tag:" then
    (t.tags.getD []).any fun tag => strLower (tagValueName tag) == strLower (strDrop f 4)
  else if strStarts f "/" then
    (t.pages.getD []).any fun p => strIncludes p.url f
  else
    strIncludes (strLower t.name) (strLower f)

/-! ### Concrete projects, tests, environments and batches used by the
witnesses and counterexamples -/

/-- Counterexample input: an authenticated project with one credential,
and a selected test whose `credential_name` is the empty string — a
non-null value that the code's `!!name` check discards. -/
def truthyCexProject : ProjectResponse :=
  { id := "p1", name := "Shop", auth_mode := some "existing_user",
    credentials := some [{ name := "admin", email := "a@x.test", password := "pw" }] }

/-- Selected tests for the counterexample: one active test with
`credential_name` set to `""`. -/
def truthyCexTests : List TestResponse :=
  [{ id := "t1", name := "Checkout", status := some "active",
     credential_name := some "" }]

/-- Shared demo data: an authenticated project with two credentials. -/
def demoAuthedProject : ProjectResponse :=
  { id := "p2", name := "Portal", base_url := some "https://portal.test",
    auth_mode := some "existing_user",
    login_url := some "https://portal.test/login",
    login_instructions := some "use the form",
    credentials := some
      [{ name := "admin", email := "admin@x.test", password := "a" },
       { name := "viewer", email := "viewer@x.test", password := "v" }] }

/-- Shared demo data: an active test referencing the `viewer` credential. -/
def demoViewerTest : TestResponse :=
  { id := "tv", name := "View dashboard", status := some "active",
    credential_name := some "viewer" }

/-- Demo data for C2: a `none`-auth project whose record still carries
stale auth fields and credentials. -/
def staleNoneProject : ProjectResponse :=
  { id := "p3", name := "Docs", base_url := some "https://docs.test",
    auth_mode := some "none",
    login_url := some "https://docs.test/login",
    register_url := some "https://docs.test/register",
    login_instructions := some "stale",
    register_instructions := some "stale",
    credentials := some [{ name := "ghost", email := "g@x.test", password := "gp" }] }

/-- Demo data for C10: a project with no `auth_mode` but populated
auth/credential fields. -/
def absentModeProject : ProjectResponse :=
  { id := "p4", name := "Blog", base_url := some "https://blog.test",
    auth_mode := none,
    login_url := some "https://blog.test/login",
    login_instructions := some "stale",
    credentials := some [{ name := "ed", email := "e@x.test", password := "ep" }] }

/-- Shared demo data: an active test tagged `Smoke` on the login page. -/
def demoLoginTest : TestResponse :=
  { id := "tl", name := "Login flow", status := some "active",
    tags := some [.str "Smoke"],
    pages := some [{ id := "pg1", url := "https://portal.test/login" }] }

/-- Shared demo data: a draft test that every filter must drop. -/
def demoDraftTest : TestResponse :=
  { id := "td", name := "Draft one", status := some "draft" }

/-- Environment for the C7 witness: one draft test, and a `startRun`
endpoint that always fails (so a started run would be visible). -/
def emptyBatchEnv : ApiEnv :=
  { getProject := fun _ => .ok ⟨absentModeProject⟩
    listTests := fun _ _ => .ok ⟨[demoDraftTest]⟩
    getTest := fun i => .error ("no such test: " ++ i)
    startRun := fun _ => .error "startRun must not be reached" }

/-- Environment for the C5 witness: two active tests, `startRun`
succeeding for `tl` and failing for `tv`. -/
def failingRunEnv : ApiEnv :=
  { getProject := fun _ => .ok ⟨absentModeProject⟩
    listTests := fun _ _ => .ok ⟨[demoLoginTest, demoViewerTest]⟩
    getTest := fun i => .error ("no such test: " ++ i)
    startRun := fun i =>
      if i == "tl" then .ok ⟨{ id := "r-tl", status := "running" }⟩
      else .error "run refused" }

/-- Environment for the C6 witness: three listed tests (one draft), and
a `startRun` endpoint deriving each run id from the test id. -/
def okRunEnv : ApiEnv :=
  { getProject := fun _ => .ok ⟨absentModeProject⟩
    listTests := fun _ _ => .ok ⟨[demoLoginTest, demoDraftTest, demoViewerTest]⟩
    getTest := fun i => .error ("no such test: " ++ i)
    startRun := fun i => .ok ⟨{ id := "run-" ++ i, status := "running" }⟩ }

/-- The batch `okRunEnv` produces: entries for `tl` and `tv` in listed
order, each carrying its own run id. -/
def okBatch : BatchResult :=
  { project := { id := "p4", name := "Blog", base_url := some "https://blog.test",
                 auth_mode := "none" }
    tests :=
      [{ test_id := "tl", test_name := "Login flow", run_id := "run-tl",
         credential_name := none,
         pages := [{ id := "pg1", url := "https://portal.test/login" }],
         tags := ["Smoke"], has_script := false },
       { test_id := "tv", test_name := "View dashboard", run_id := "run-tv",
         credential_name := some "viewer", pages := [], tags := [],
         has_script := false }] }

/-- The compact record the test listing returns for the C8 input. -/
def listedTest : TestResponse :=
  { id := "t1", name := "listed-name", status := some "active" }

/-- The full detail the per-test endpoint would return for the same
test: same id, different name and fresh instructions. -/
def freshDetail : TestResponse :=
  { id := "t1", name := "fresh-detail-name", status := some "active",
    instructions := some "step 1" }

/-- Environment whose detail endpoint answers with `freshDetail`. -/
def detailEnv : ApiEnv :=
  { getProject := fun _ => .ok ⟨absentModeProject⟩
    listTests := fun _ _ => .ok ⟨[listedTest]⟩
    getTest := fun _ => .ok ⟨freshDetail⟩
    startRun := fun i => .ok ⟨{ id := "run-" ++ i, status := "running" }⟩ }

/-- The same environment with the detail endpoint failing outright. -/
def noDetailEnv : ApiEnv := { detailEnv with getTest := fun _ => .error "detail endpoint down" }

/-- The batch `detailEnv` produces, built from the compact listing. -/
def listedBatch : BatchResult :=
  { project := { id := "p4", name := "Blog", base_url := some "https://blog.test",
                 auth_mode := "none" }
    tests := [{ test_id := "t1", test_name := "listed-name", run_id := "run-t1",
                credential_name := none, pages := [], tags := [],
                has_script := false }] }

/-- A fragment of `JSON.parse`: defined on the body texts the examples
below use (where it agrees with `JSON.parse`), `none` — a parse throw —
everywhere else. -/
def demoParse : String → Option JsValue := fun s =>
  if s == "\x7b\"message\":\"\"\x7d" then some (.obj [("message", .str "")])
  else if s == "\x7b\"message\":\"boom\"\x7d" then some (.obj [("message", .str "boom")])
  else none

/-! ### Helper lemmas -/

example : strIncludes "abc/checkout/x" "/checkout" = true := by decide
example : strIncludes "abc" "" = true := by decide
example : strStarts "tag:smoke" "tag:" = true := by decide
example : strLower "TaG" = "tag" := by decide

theorem charsInclude_nil (s : List Char) : charsInclude [] s = true := by
  cases s <;> simp [charsInclude, charsStartWith]

theorem strIncludes_empty (s : String) : strIncludes s "" = true := by
  simpa [strIncludes] using charsInclude_nil s.data

theorem referencedCredNames_eq_truthy_filter (tests : List TestResponse) :
    referencedCredNames tests =
      (tests.filterMap fun t => t.credential_name).filter fun n => n != "" := by
  induction tests with
  | nil => rfl
  | cons t rest ih =>
    unfold referencedCredNames at ih ⊢
    rw [List.filterMap_cons, List.filterMap_cons]
    cases h : t.credential_name with
    | none => simpa using ih
    | some n =>
      by_cases hn : n = ""
      · subst hn
        simpa using ih
      · simpa [hn] using ih

/-! ### C1 — credential scoping (corrected: JS truthiness drops `""`) -/

/-- C1 (counterexample): on `truthyCexProject`/`truthyCexTests` the set of
distinct non-null `credential_name` values is the non-empty set containing
`""`, so the claim requires the summary's credential list to be the
project credentials named `""` — the empty list — yet the code exposes the
full credential list (its `!!name` truthiness check discards `""`). -/
theorem buildProjectSummary_nonnull_cex :
    (truthyCexTests.filterMap fun t => t.credential_name) = [""] ∧
    claimScopedCredentials truthyCexProject truthyCexTests = [] ∧
    exposedCredentials (buildProjectSummary truthyCexProject truthyCexTests) =
      [{ name := "admin", email := "a@x.test", password := "pw" }] :=
  ⟨rfl, rfl, rfl⟩

/-- C1 (amended): for every project whose `auth_mode` is present and not
`"none"` and every selected test list, the credentials exposed by the
summary are exactly those the amended claim specifies: filter the
project's credentials, in original order, by the set of non-null and
non-empty `credential_name` values of the selected tests when that set
is non-empty, else the full list. -/
theorem buildProjectSummary_scoped (project : ProjectResponse)
    (tests : List TestResponse) (m : String)
    (hm : project.auth_mode = some m) (hne : m ≠ "none") :
    exposedCredentials (buildProjectSummary project tests) =
      claimScopedCredentialsTruthy project tests := by
  have hb : (m == "none") = false := beq_eq_false_iff_ne.mpr hne
  have key : ∀ L : List Credential,
      (if L.length > 0 then some L else none).getD [] = L := by
    intro L
    by_cases h : L.length > 0
    · simp [h]
    · have hL : L = [] := List.length_eq_zero.mp (Nat.eq_zero_of_not_pos h)
      simp [hL]
  unfold buildProjectSummary claimScopedCredentialsTruthy exposedCredentials
  rw [hm]
  simp only [Option.getD_some, hb]
  rw [← referencedCredNames_eq_truthy_filter]
  by_cases hr : (referencedCredNames tests).length > 0
  · simp only [Bool.false_eq_true, if_false, hr, if_true]
    exact key _
  · simp only [Bool.false_eq_true, if_false, hr]
    exact key _

/-- C1 (witness): the amended theorem applied to `demoAuthedProject` with a
single test referencing `viewer`; both sides evaluate to `[viewer]`. -/
theorem buildProjectSummary_scoped_witness :
    (demoAuthedProject.auth_mode = some "existing_user" ∧ "existing_user" ≠ "none") ∧
    exposedCredentials (buildProjectSummary demoAuthedProject [demoViewerTest]) =
      claimScopedCredentialsTruthy demoAuthedProject [demoViewerTest] ∧
    exposedCredentials (buildProjectSummary demoAuthedProject [demoViewerTest]) =
      [{ name := "viewer", email := "viewer@x.test", password := "v" }] :=
  ⟨⟨rfl, by decide⟩,
   buildProjectSummary_scoped demoAuthedProject [demoViewerTest] "existing_user" rfl (by decide),
   rfl⟩

/-! ### C2 / C10 — the `auth_mode = none` (and absent) redaction -/

/-- C2: when `auth_mode` is `"none"`, the summary carries only identity,
name, base URL and `auth_mode := "none"`; every other field of
`BatchProjectSummary` is `none` (its record default), regardless of what
the project record carries and which tests were selected. -/
theorem buildProjectSummary_auth_none (project : ProjectResponse)
    (tests : List TestResponse) (h : project.auth_mode = some "none") :
    buildProjectSummary project tests =
      { id := project.id, name := project.name, base_url := project.base_url,
        auth_mode := "none" } := by
  simp [buildProjectSummary, h]

/-- C2 (witness): the theorem applied to a populated `none`-auth project;
the summary drops every stale auth/credential field. -/
theorem buildProjectSummary_auth_none_witness :
    staleNoneProject.auth_mode = some "none" ∧
    buildProjectSummary staleNoneProject [demoViewerTest] =
      { id := "p3", name := "Docs", base_url := some "https://docs.test",
        auth_mode := "none" } :=
  ⟨rfl, buildProjectSummary_auth_none staleNoneProject [demoViewerTest] rfl⟩

/-- C10: when `auth_mode` is absent (`undefined`), `buildProjectSummary`
behaves exactly as for `auth_mode = "none"`: the summary carries only
identity, name, base URL and `auth_mode := "none"`, all other fields
`none`, for every selected test list. -/
theorem buildProjectSummary_auth_absent (project : ProjectResponse)
    (tests : List TestResponse) (h : project.auth_mode = none) :
    buildProjectSummary project tests =
      { id := project.id, name := project.name, base_url := project.base_url,
        auth_mode := "none" } := by
  simp [buildProjectSummary, h]

/-- C10 (witness): the theorem applied to a populated project lacking
`auth_mode`; the summary is the bare identity record. -/
theorem buildProjectSummary_auth_absent_witness :
    absentModeProject.auth_mode = none ∧
    buildProjectSummary absentModeProject [demoViewerTest] =
      { id := "p4", name := "Blog", base_url := some "https://blog.test",
        auth_mode := "none" } :=
  ⟨rfl, buildProjectSummary_auth_absent absentModeProject [demoViewerTest] rfl⟩

/-! ### C3 — explicit IDs take precedence -/

/-- C3: for every test list and non-empty explicit id list, `filterTests`
returns exactly the active tests whose id is in the id list, in input
order (a single stable filter pass), and the filter expression supplied
alongside has no effect on the result. -/
theorem filterTests_explicit_ids (tests : List TestResponse) (ids : List String)
    (filter : Option String) (h : ids ≠ []) :
    filterTests tests filter (some ids) =
      tests.filter fun t => (t.status == some "active") && ids.contains t.id := by
  have hlen : (ids : List String).length > 0 := List.length_pos.mpr h
  simp only [filterTests, Option.getD_some]
  rw [if_pos hlen, List.filter_filter]
  simp [Bool.and_comm]

/-- C3 (witness): the theorem applied to three concrete tests with ids
`["tv", "td"]` and a competing tag filter; only the active test `tv`
survives (the draft `td` is dropped, the tag filter is ignored). -/
theorem filterTests_explicit_ids_witness :
    (["tv", "td"] ≠ ([] : List String)) ∧
    filterTests [demoLoginTest, demoDraftTest, demoViewerTest]
        (some "tag:smoke") (some ["tv", "td"]) =
      [demoLoginTest, demoDraftTest, demoViewerTest].filter
        (fun t => (t.status == some "active") && (["tv", "td"] : List String).contains t.id) ∧
    filterTests [demoLoginTest, demoDraftTest, demoViewerTest]
        (some "tag:smoke") (some ["tv", "td"]) = [demoViewerTest] :=
  ⟨by decide,
   filterTests_explicit_ids [demoLoginTest, demoDraftTest, demoViewerTest]
     ["tv", "td"] (some "tag:smoke") (by decide),
   rfl⟩

/-! ### C4 — the three expression rules -/

/-- C4: with no explicit ids, `filterTests` returns all active tests
unchanged when no expression is given, and otherwise exactly the active
tests satisfying the one rule the expression's prefix selects, always
preserving input order.  (The empty expression is treated by the code as
"no filter", which coincides with the name rule since every name
contains the empty string.) -/
theorem filterTests_expr_rules (tests : List TestResponse) (filter : Option String) :
    filterTests tests filter none =
      match filter with
      | none => tests.filter fun t => t.status == some "active"
      | some f => (tests.filter fun t => t.status == some "active").filter (claimExprRule f) := by
  cases filter with
  | none => rfl
  | some f =>
    by_cases hf : f = ""
    · subst hf
      have hrule : ∀ t : TestResponse, claimExprRule "" t = true := fun t => by
        simp only [claimExprRule, show strStarts "" "tag:" = false by decide,
          show strStarts "" "/" = false by decide, Bool.false_eq_true, if_false,
          show strLower "" = "" from rfl]
        exact strIncludes_empty _
      have hid : (tests.filter fun t => t.status == some "active").filter (claimExprRule "") =
          tests.filter fun t => t.status == some "active" := by
        rw [List.filter_congr (fun t _ => hrule t), List.filter_true]
      simp only [hid]
      simp [filterTests, jsTruthyStr]
    · have htr : jsTruthyStr (some f) = true := by simp [jsTruthyStr, hf]
      by_cases h1 : strStarts f "tag:" <;> by_cases h2 : strStarts f "/" <;>
        simp [filterTests, claimExprRule, htr, h1, h2]

example : filterTests [demoLoginTest, demoDraftTest, demoViewerTest]
    (some "tag:smoke") none = [demoLoginTest] := by decide
example : filterTests [demoLoginTest, demoDraftTest, demoViewerTest]
    (some "/login") none = [demoLoginTest] := by decide
example : filterTests [demoLoginTest, demoDraftTest, demoViewerTest]
    (some "LOGIN") none = [demoLoginTest] := by decide
example : filterTests [demoLoginTest, demoDraftTest, demoViewerTest]
    none none = [demoLoginTest, demoViewerTest] := by decide

/-! ### Batch preparer lemmas -/

/-- `startBatchRuns` succeeds exactly when every run start succeeds,
pairing tests with runs in list order. -/
theorem startBatchRuns_ok_iff (tests : List TestResponse)
    (startRun : String → Except String RunWrap) (runs : List RunWrap) :
    startBatchRuns tests startRun = .ok runs ↔
      List.Forall₂ (fun t w => startRun t.id = .ok w) tests runs := by
  induction tests generalizing runs with
  | nil =>
    constructor
    · intro h
      simp only [startBatchRuns] at h
      cases h
      exact List.Forall₂.nil
    · intro h
      cases h
      rfl
  | cons t rest ih =>
    constructor
    · intro h
      simp only [startBatchRuns] at h
      cases hsr : startRun t.id with
      | error e => rw [hsr] at h; simp at h
      | ok w =>
        rw [hsr] at h
        cases hrest : startBatchRuns rest startRun with
        | error e => rw [hrest] at h; simp at h
        | ok ws =>
          rw [hrest] at h
          simp only [Except.ok.injEq] at h
          subst h
          exact List.Forall₂.cons hsr ((ih ws).mp hrest)
    · intro h
      cases h with
      | cons hw hrest =>
        simp only [startBatchRuns]
        rw [hw, (ih _).mpr hrest]

/-- A failing run start for a member test fails the whole fan-out, with
an error that is itself some member's run-start error. -/
theorem startBatchRuns_error_of_mem (tests : List TestResponse)
    (startRun : String → Except String RunWrap) (t : TestResponse) (e : String)
    (hmem : t ∈ tests) (hfail : startRun t.id = .error e) :
    ∃ e', startBatchRuns tests startRun = .error e' ∧
      ∃ t', t' ∈ tests ∧ startRun t'.id = .error e' := by
  induction tests with
  | nil => cases hmem
  | cons t0 rest ih =>
    cases hsr : startRun t0.id with
    | error e0 =>
      exact ⟨e0, by simp [startBatchRuns, hsr], t0, List.mem_cons_self _ _, hsr⟩
    | ok w =>
      have hmem' : t ∈ rest := by
        cases List.mem_cons.mp hmem with
        | inl heq => subst heq; rw [hfail] at hsr; cases hsr
        | inr h => exact h
      obtain ⟨e', he', t', ht', hfail'⟩ := ih hmem'
      refine ⟨e', ?_, t', List.mem_cons_of_mem _ ht', hfail'⟩
      simp [startBatchRuns, hsr, he']

/-- When exactly one member's run start fails, the fan-out fails with
precisely that member's error. -/
theorem startBatchRuns_error_unique (tests : List TestResponse)
    (startRun : String → Except String RunWrap) (t : TestResponse) (e : String)
    (hmem : t ∈ tests) (hfail : startRun t.id = .error e)
    (honly : ∀ t' ∈ tests, t' = t ∨ ∃ w, startRun t'.id = .ok w) :
    startBatchRuns tests startRun = .error e := by
  induction tests with
  | nil => cases hmem
  | cons t0 rest ih =>
    cases hsr : startRun t0.id with
    | error e0 =>
      have he : e0 = e := by
        cases honly t0 (List.mem_cons_self _ _) with
        | inl h => rw [h, hfail] at hsr; exact (Except.error.inj hsr).symm
        | inr h => obtain ⟨w, hw⟩ := h; rw [hw] at hsr; cases hsr
      subst he
      simp [startBatchRuns, hsr]
    | ok w =>
      have hmem' : t ∈ rest := by
        cases List.mem_cons.mp hmem with
        | inl heq => subst heq; rw [hfail] at hsr; cases hsr
        | inr h => exact h
      have hrest := ih hmem' (fun t' ht' => honly t' (List.mem_cons_of_mem _ ht'))
      simp [startBatchRuns, hsr, hrest]

/-- Membership in a `zipWith` over `Forall₂`-related lists comes from a
related pair. -/
theorem mem_zipWith_of_forall₂ {α β γ : Type} {R : α → β → Prop} {g : α → β → γ}
    {l₁ : List α} {l₂ : List β} (h : List.Forall₂ R l₁ l₂) :
    ∀ x ∈ List.zipWith g l₁ l₂, ∃ a b, R a b ∧ x = g a b := by
  induction h with
  | nil => intro x hx; cases hx
  | cons hab hrest ih =>
    intro x hx
    cases List.mem_cons.mp hx with
    | inl heq => exact ⟨_, _, hab, heq⟩
    | inr hmem => exact ih x hmem

/-- Characterization of a successful `prepareTestBatch`: both initial
fetches succeeded, the fan-out succeeded, and the batch is the summary
plus the zipped entries (the empty-filter branch is the `runs = []`
instance). -/
theorem prepareTestBatch_ok_elim (env : ApiEnv) (pid : String)
    (filter : Option String) (testIds : Option (List String)) (b : BatchResult)
    (h : prepareTestBatch env pid filter testIds = .ok b) :
    ∃ pw tw runs, env.getProject pid = .ok pw ∧ env.listTests pid true = .ok tw ∧
      startBatchRuns (filterTests tw.tests filter testIds) env.startRun = .ok runs ∧
      b = { project := buildProjectSummary pw.project (filterTests tw.tests filter testIds),
            tests := List.zipWith mkBatchEntry (filterTests tw.tests filter testIds) runs } := by
  unfold prepareTestBatch at h
  cases hp : env.getProject pid with
  | error e => rw [hp] at h; simp at h
  | ok pw =>
    cases ht : env.listTests pid true with
    | error e => rw [hp, ht] at h; simp at h
    | ok tw =>
      rw [hp, ht] at h
      simp only at h
      by_cases hlen : ((filterTests tw.tests filter testIds).length == 0) = true
      · rw [if_pos hlen] at h
        have hactive : filterTests tw.tests filter testIds = [] :=
          List.length_eq_zero.mp (by simpa using hlen)
        simp only [Except.ok.injEq] at h
        subst h
        refine ⟨pw, tw, [], rfl, rfl, ?_, ?_⟩
        · rw [hactive]; rfl
        · rw [List.zipWith_nil_right]
      · rw [if_neg hlen] at h
        cases hrs : startBatchRuns (filterTests tw.tests filter testIds) env.startRun with
        | error e => rw [hrs] at h; simp at h
        | ok runs =>
          rw [hrs] at h
          simp only [Except.ok.injEq] at h
          subst h
          exact ⟨pw, tw, runs, rfl, rfl, hrs, rfl⟩

/-- A failed fan-out fails the whole preparation with the same error. -/
theorem prepareTestBatch_runs_error (env : ApiEnv) (pid : String)
    (filter : Option String) (testIds : Option (List String))
    (pw : ProjectWrap) (tw : TestsWrap) (e : String)
    (hp : env.getProject pid = .ok pw) (ht : env.listTests pid true = .ok tw)
    (hne : filterTests tw.tests filter testIds ≠ [])
    (hrs : startBatchRuns (filterTests tw.tests filter testIds) env.startRun = .error e) :
    prepareTestBatch env pid filter testIds = .error e := by
  unfold prepareTestBatch
  rw [hp, ht]
  simp only
  rw [if_neg (by simp [List.length_eq_zero, hne]), hrs]

/-! ### C7 — an empty filtered set is a success, not an error -/

/-- C7: when the filtered active set is empty, `prepareTestBatch`
returns `.ok` with the redacted summary and an empty test list, for
*every* `startRun` endpoint (in particular one that always fails — no
run is ever started). -/
theorem prepareTestBatch_empty_ok (env : ApiEnv) (pid : String)
    (filter : Option String) (testIds : Option (List String))
    (pw : ProjectWrap) (tw : TestsWrap)
    (hp : env.getProject pid = .ok pw) (ht : env.listTests pid true = .ok tw)
    (hempty : filterTests tw.tests filter testIds = []) :
    prepareTestBatch env pid filter testIds =
      .ok { project := buildProjectSummary pw.project [], tests := [] } := by
  unfold prepareTestBatch
  rw [hp, ht]
  simp only [hempty]
  rfl

/-- C7 (witness): a tag filter matching nothing yields `.ok` with an
empty test list even though every `startRun` call would fail. -/
theorem prepareTestBatch_empty_ok_witness :
    (emptyBatchEnv.getProject "p4" = .ok ⟨absentModeProject⟩ ∧
     emptyBatchEnv.listTests "p4" true = .ok ⟨[demoDraftTest]⟩ ∧
     filterTests [demoDraftTest] (some "tag:smoke") none = []) ∧
    prepareTestBatch emptyBatchEnv "p4" (some "tag:smoke") none =
      .ok { project := buildProjectSummary absentModeProject [], tests := [] } :=
  ⟨⟨rfl, rfl, rfl⟩,
   prepareTestBatch_empty_ok emptyBatchEnv "p4" (some "tag:smoke") none
     ⟨absentModeProject⟩ ⟨[demoDraftTest]⟩ rfl rfl rfl⟩

/-! ### C5 — fan-out failures are all-or-nothing -/

/-- C5: if starting a run fails for a surviving test, the whole
preparation fails — with exactly that error when it is the only failure
— and a successful preparation pairs every entry with the run its own
test's `startRun` produced (no entry lacks a valid run id). -/
theorem prepareTestBatch_all_or_nothing (env : ApiEnv) (pid : String)
    (filter : Option String) (testIds : Option (List String)) :
    (∀ pw tw t e,
        env.getProject pid = .ok pw → env.listTests pid true = .ok tw →
        t ∈ filterTests tw.tests filter testIds → env.startRun t.id = .error e →
        (∃ e', prepareTestBatch env pid filter testIds = .error e' ∧
           ∃ t', t' ∈ filterTests tw.tests filter testIds ∧
             env.startRun t'.id = .error e') ∧
        ((∀ t' ∈ filterTests tw.tests filter testIds,
            t' = t ∨ ∃ w, env.startRun t'.id = .ok w) →
          prepareTestBatch env pid filter testIds = .error e)) ∧
    (∀ b, prepareTestBatch env pid filter testIds = .ok b →
        ∀ entry ∈ b.tests,
          ∃ w, env.startRun entry.test_id = .ok w ∧ entry.run_id = w.run.id) := by
  constructor
  · intro pw tw t e hp ht hmem hfail
    have hne : filterTests tw.tests filter testIds ≠ [] :=
      List.ne_nil_of_mem hmem
    constructor
    · obtain ⟨e', he', t', ht', hf'⟩ :=
        startBatchRuns_error_of_mem _ env.startRun t e hmem hfail
      exact ⟨e', prepareTestBatch_runs_error env pid filter testIds pw tw e'
        hp ht hne he', t', ht', hf'⟩
    · intro honly
      exact prepareTestBatch_runs_error env pid filter testIds pw tw e hp ht hne
        (startBatchRuns_error_unique _ env.startRun t e hmem hfail honly)
  · intro b hok entry hentry
    obtain ⟨pw, tw, runs, hp, ht, hrs, hb⟩ :=
      prepareTestBatch_ok_elim env pid filter testIds b hok
    subst hb
    have hfa := (startBatchRuns_ok_iff _ env.startRun runs).mp hrs
    obtain ⟨t, w, hw, hx⟩ := mem_zipWith_of_forall₂ hfa entry hentry
    subst hx
    exact ⟨w, hw, rfl⟩

/-- C5 (witness): with `tv` the sole failing test, the whole prepare
call fails with its error. -/
theorem prepareTestBatch_all_or_nothing_witness :
    prepareTestBatch failingRunEnv "p" none none = .error "run refused" ∧
    demoViewerTest ∈ filterTests [demoLoginTest, demoViewerTest] none none ∧
    failingRunEnv.startRun "tv" = .error "run refused" := by
  refine ⟨?_, by decide, rfl⟩
  have h := (prepareTestBatch_all_or_nothing failingRunEnv "p" none none).1
    ⟨absentModeProject⟩ ⟨[demoLoginTest, demoViewerTest]⟩ demoViewerTest "run refused"
    rfl rfl (by decide) rfl
  refine h.2 ?_
  intro t' ht'
  have hmem : t' = demoLoginTest ∨ t' = demoViewerTest := by
    have hfe : filterTests [demoLoginTest, demoViewerTest] none none =
        [demoLoginTest, demoViewerTest] := rfl
    rw [hfe] at ht'
    simpa using ht'
  cases hmem with
  | inl h1 => exact Or.inr ⟨⟨{ id := "r-tl", status := "running" }⟩, by rw [h1]; rfl⟩
  | inr h2 => exact Or.inl h2

/-! ### C6 — filtered order and per-test pairing -/

/-- C6: a successful batch has exactly one entry per filtered test, in
the filtered order, and the `i`-th entry carries the `i`-th filtered
test's id, name, credential name, pages and tags together with the id
of the run that test's own `startRun` call produced. -/
theorem prepareTestBatch_order_pairing (env : ApiEnv) (pid : String)
    (filter : Option String) (testIds : Option (List String))
    (tw : TestsWrap) (b : BatchResult) (active : List TestResponse)
    (ht : env.listTests pid true = .ok tw)
    (hact : active = filterTests tw.tests filter testIds)
    (hok : prepareTestBatch env pid filter testIds = .ok b) :
    b.tests.length = active.length ∧
    ∀ i (hi : i < active.length) (hb : i < b.tests.length),
      ∃ w, env.startRun (active.get ⟨i, hi⟩).id = .ok w ∧
        b.tests.get ⟨i, hb⟩ =
          { test_id := (active.get ⟨i, hi⟩).id
            test_name := (active.get ⟨i, hi⟩).name
            run_id := w.run.id
            credential_name := (active.get ⟨i, hi⟩).credential_name
            pages := ((active.get ⟨i, hi⟩).pages.getD []).map fun p => { id := p.id, url := p.url }
            tags := ((active.get ⟨i, hi⟩).tags.getD []).map tagValueName
            has_script := testHasScript (active.get ⟨i, hi⟩) } := by
  subst hact
  obtain ⟨pw, tw', runs, hp', ht', hrs, hb'⟩ :=
    prepareTestBatch_ok_elim env pid filter testIds b hok
  have htw : tw' = tw := by
    rw [ht] at ht'
    exact (Except.ok.inj ht').symm
  subst htw
  subst hb'
  have hfa := (startBatchRuns_ok_iff _ env.startRun runs).mp hrs
  have hlen := hfa.length_eq
  constructor
  · simp [hlen]
  · intro i hi hb2
    have hr : i < runs.length := hlen ▸ hi
    refine ⟨runs.get ⟨i, hr⟩, hfa.get hi hr, ?_⟩
    simp [List.get_eq_getElem, List.getElem_zipWith, mkBatchEntry]

/-- C6 (witness): the theorem applied to `okRunEnv`; the second entry is
the second filtered test (`tv`) paired with the run its own start call
produced. -/
theorem prepareTestBatch_order_pairing_witness :
    prepareTestBatch okRunEnv "p" none none = .ok okBatch ∧
    okBatch.tests.length = 2 ∧
    (∃ w, okRunEnv.startRun "tv" = .ok w ∧
       okBatch.tests.get ⟨1, by decide⟩ =
         { test_id := "tv", test_name := "View dashboard", run_id := w.run.id,
           credential_name := some "viewer", pages := [], tags := [],
           has_script := false }) := by
  have h := prepareTestBatch_order_pairing okRunEnv "p" none none
    ⟨[demoLoginTest, demoDraftTest, demoViewerTest]⟩ okBatch
    (filterTests [demoLoginTest, demoDraftTest, demoViewerTest] none none)
    rfl rfl rfl
  exact ⟨rfl, h.1, h.2 1 (by decide) (by decide)⟩

/-! ### C8 — there is no per-test detail fetch (corrected) -/

/-- C8 (counterexample): batch preparation gives the identical result
whether the per-test detail endpoint returns a fresh record or fails
outright, and the assembled entry carries the listing's `listed-name`,
not the detail's `fresh-detail-name` — so no per-test detail is fetched
and entries are not built from fetched detail (had a detail fetch been
part of the fan-out, its failure in `noDetailEnv` would also have failed
the whole preparation). -/
theorem prepareTestBatch_detail_fetch_cex :
    prepareTestBatch detailEnv "p" none none = prepareTestBatch noDetailEnv "p" none none ∧
    detailEnv.getTest "t1" = .ok ⟨freshDetail⟩ ∧
    noDetailEnv.getTest "t1" = .error "detail endpoint down" ∧
    (prepareTestBatch detailEnv "p" none none).toOption.map
      (fun b => b.tests.map (fun s => s.test_name)) = some ["listed-name"] ∧
    freshDetail.name = "fresh-detail-name" ∧
    ("fresh-detail-name" : String) ≠ "listed-name" :=
  ⟨rfl, rfl, rfl, rfl, rfl, by decide⟩

/-- C8 (amended): batch preparation performs one concurrent `startRun`
per surviving test and nothing else per test — its result does not
depend on the detail endpoint at all — and the entries of a successful
batch are built by zipping the *listed* (compact) filtered tests with
their runs. -/
theorem prepareTestBatch_from_listing (env : ApiEnv)
    (g : String → Except String TestWrap) (pid : String)
    (filter : Option String) (testIds : Option (List String)) :
    prepareTestBatch { env with getTest := g } pid filter testIds =
      prepareTestBatch env pid filter testIds ∧
    (∀ tw b, env.listTests pid true = .ok tw →
        prepareTestBatch env pid filter testIds = .ok b →
        ∃ runs, startBatchRuns (filterTests tw.tests filter testIds) env.startRun = .ok runs ∧
          b.tests = List.zipWith mkBatchEntry (filterTests tw.tests filter testIds) runs) := by
  constructor
  · rfl
  · intro tw b ht hok
    obtain ⟨pw, tw', runs, hp', ht', hrs, hb'⟩ :=
      prepareTestBatch_ok_elim env pid filter testIds b hok
    have htw : tw' = tw := by
      rw [ht] at ht'
      exact (Except.ok.inj ht').symm
    subst htw
    subst hb'
    exact ⟨runs, hrs, rfl⟩

/-- C8 (witness): the amended theorem applied to `detailEnv` — replacing
the detail endpoint changes nothing, and `listedBatch`'s entries are the
zip of the compact listing with the started runs. -/
theorem prepareTestBatch_from_listing_witness :
    prepareTestBatch { detailEnv with getTest := fun i => .error ("gone: " ++ i) }
        "p" none none =
      prepareTestBatch detailEnv "p" none none ∧
    ∃ runs, startBatchRuns (filterTests [listedTest] none none) detailEnv.startRun = .ok runs ∧
      listedBatch.tests = List.zipWith mkBatchEntry (filterTests [listedTest] none none) runs := by
  have h := prepareTestBatch_from_listing detailEnv
    (fun i => .error ("gone: " ++ i)) "p" none none
  exact ⟨h.1, h.2 ⟨[listedTest]⟩ listedBatch rfl rfl⟩

/-! ### C9 — translation of non-2xx responses (corrected: `|| text`) -/

/-- C9 (counterexample): a 422 response whose body parses as JSON *with*
a `message` field (the empty string) does not carry that field's value —
the code's `json.message || text` treats `""` as falsy and falls back to
the raw body text. -/
theorem request_falsy_message_cex :
    demoParse "\x7b\"message\":\"\"\x7d" = some (.obj [("message", .str "")]) ∧
    request demoParse "POST" "/tests" ⟨422, "\x7b\"message\":\"\"\x7d"⟩ =
      .error (.apiFailure "POST" "/tests" 422 "\x7b\"message\":\"\"\x7d") ∧
    ("\x7b\"message\":\"\"\x7d" : String) ≠ "" :=
  ⟨rfl, rfl, by decide⟩

/-- C9 (amended): every non-2xx response raises the typed failure
carrying the method, path, numeric status and the message the amended
claim specifies (the stringified `message` field when the body parses as
JSON with a *truthy* `message` field, otherwise the raw body text); a
2xx response never raises this failure. -/
theorem request_error_translation (parse : String → Option JsValue)
    (method path : String) (resp : HttpResponse) :
    (respOk resp = false →
      request parse method path resp =
        .error (.apiFailure method path resp.status (specErrorMessage parse resp.body))) ∧
    (respOk resp = true →
      ∀ m p s msg, request parse method path resp ≠ .error (.apiFailure m p s msg)) := by
  constructor
  · intro h
    unfold request specErrorMessage
    rw [h]
    rfl
  · intro h m p s msg hcontra
    unfold request at hcontra
    rw [h] at hcontra
    cases hp : parse resp.body with
    | some v => rw [hp] at hcontra; simp at hcontra
    | none => rw [hp] at hcontra; simp at hcontra

/-- C9 (witness): the amended theorem applied to a 404 with a non-JSON
body (raw text carried), a 500 with a truthy JSON `message` (field value
carried), and a 200 (no API failure raised). -/
theorem request_error_translation_witness :
    (respOk ⟨404, "missing"⟩ = false ∧
     request demoParse "GET" "/projects/x" ⟨404, "missing"⟩ =
       .error (.apiFailure "GET" "/projects/x" 404 (specErrorMessage demoParse "missing")) ∧
     specErrorMessage demoParse "missing" = "missing") ∧
    (request demoParse "PUT" "/runs/r1" ⟨500, "\x7b\"message\":\"boom\"\x7d"⟩ =
       .error (.apiFailure "PUT" "/runs/r1" 500
         (specErrorMessage demoParse "\x7b\"message\":\"boom\"\x7d")) ∧
     specErrorMessage demoParse "\x7b\"message\":\"boom\"\x7d" = "boom") ∧
    (respOk ⟨200, "ok"⟩ = true ∧
     request demoParse "GET" "/projects" ⟨200, "ok"⟩ ≠
       .error (.apiFailure "GET" "/projects" 200 "ok")) :=
  ⟨⟨rfl,
    (request_error_translation demoParse "GET" "/projects/x" ⟨404, "missing"⟩).1 rfl,
    rfl⟩,
   ⟨(request_error_translation demoParse "PUT" "/runs/r1"
       ⟨500, "\x7b\"message\":\"boom\"\x7d"⟩).1 rfl,
    rfl⟩,
   ⟨rfl,
    (request_error_translation demoParse "GET" "/projects" ⟨200, "ok"⟩).2 rfl
      "GET" "/projects" 200 "ok"⟩⟩

end Greenrun
